import Mathlib

/-
Verification of the motion-energy snippet selector and its helpers from
lightning_pose_app/backend/video.py.

Modelling conventions:
* Python floats that originate from file metadata, CSV entries or integer
  arithmetic are modelled as rationals (every IEEE float is a rational);
  values produced by a square root (np.linalg.norm) live in the reals.
* numpy NaN is modelled by Option: none is NaN, some x a finite value.
* pandas rolling(window=w).mean() and Series.argmax are modelled by
  rollingMean and pdArgmax below, following their documented semantics
  (min_periods defaults to the window size; argmax skips NaN, returns the
  first position of the maximum, and -1 when every value is NaN).
* Filesystem effects of make_video_snippet are modelled by a Boolean
  "destination exists" flag together with an action tag recording whether
  the call copied the source, ran the ffmpeg sub-clip extraction, or did
  not touch the destination.
-/

/-- Python int(x): truncation toward zero. -/
def pyTrunc (q : ℚ) : ℤ :=
  if q < 0 then ⌈q⌉ else ⌊q⌋

/-- Python round-half-even of a rational to an integer (semantics of the
built-in round on exact values). -/
def rheInt (y : ℚ) : ℤ :=
  if Int.fract y < 1/2 then ⌊y⌋
  else if 1/2 < Int.fract y then ⌈y⌉
  else if Even ⌊y⌋ then ⌊y⌋ else ⌊y⌋ + 1

/-- Python round(x, 4): round half to even at four decimal places. -/
def roundHalfEven4 (q : ℚ) : ℚ :=
  (rheInt (q * 10000) : ℚ) / 10000

/-- pandas df.rolling(window=w, center=False).mean() on a column xs:
entry i is the mean of xs over positions [i-w+1, i]; it is NaN (none)
when i+1 < w or when any value in that window is NaN (min_periods
defaults to the window size for a fixed integer window). -/
def rollingMean {α : Type} [LinearOrderedField α] (w : ℕ) (xs : List (Option α)) :
    List (Option α) :=
  (List.range xs.length).map (fun i =>
    if i + 1 < w then none
    else
      let win := (xs.drop (i + 1 - w)).take w
      if win.all Option.isSome then some ((win.filterMap id).sum / (w : α)) else none)

/-- First position of the maximum among the non-NaN entries, together with
that maximum; none when every entry is NaN.  Helper for pdArgmax. -/
def pdArgmaxNat {α : Type} [LinearOrderedField α] : List (Option α) → Option (ℕ × α)
  | [] => none
  | none :: rest => (pdArgmaxNat rest).map (fun p => (p.1 + 1, p.2))
  | some v :: rest =>
    match pdArgmaxNat rest with
    | none => some (0, v)
    | some (i, m) => if v < m then (i + 1, m) else (0, v)

/-- pandas Series.argmax: integer position of the (first) maximum, NaN
entries skipped; -1 when all entries are NaN. -/
def pdArgmax {α : Type} [LinearOrderedField α] (xs : List (Option α)) : ℤ :=
  match pdArgmaxNat xs with
  | none => -1
  | some p => (p.1 : ℤ)

/-- win_len = int(fps * clip_length) from make_video_snippet line 185. -/
def winLenOf (fps : ℚ) (clipLength : ℕ) : ℤ :=
  pyTrunc (fps * (clipLength : ℚ))

/-- What make_video_snippet did to the destination path. -/
inductive SnipAction : Type
  | skip : SnipAction
  | copyfile : SnipAction
  | runFfmpeg : SnipAction
deriving DecidableEq, Repr

/-- Observable outcome of one make_video_snippet call: the returned
(start frame index, start seconds) pair, the destination action, whether
the motion-energy analysis ran, the ffmpeg -ss seek position (when a
sub-clip was extracted) and the destination-exists flag after the call. -/
structure SnipResult : Type where
  idx : ℤ
  sec : ℚ
  action : SnipAction
  computedME : Bool
  seekSec : Option ℤ
  dstExists : Bool
deriving DecidableEq, Repr

/-- make_video_snippet (video.py lines 157-237) given the video's fps and
frame count, the motion-energy sequence the chosen estimator produces,
and whether the destination file already exists.

Source lines modelled:
* line 185: win_len = int(fps * clip_length)
* line 205: if win_len >= n_frames: copy branch, start = 0 / 0.0
* line 223: rolling(window=win_len).mean()
* line 225: clip_start_idx = argmax - win_len
* line 227: clip_start_sec = int(clip_start_idx / fps)
* line 229: np.isnan(clip_start_sec) is always False because
  clip_start_sec is an integer, so only the clip_start_sec < 0 test of
  the fallback can fire, and it resets only clip_start_sec, not
  clip_start_idx
* lines 209/233: the copy / ffmpeg step is skipped when the destination
  exists. -/
def make_video_snippet {α : Type} [LinearOrderedField α]
    (fps : ℚ) (clipLength : ℕ) (nFrames : ℕ) (me : List (Option α))
    (dstExists : Bool) : SnipResult :=
  let winLen := winLenOf fps clipLength
  if (nFrames : ℤ) ≤ winLen then
    { idx := 0, sec := 0,
      action := if dstExists then SnipAction.skip else SnipAction.copyfile,
      computedME := false, seekSec := none, dstExists := true }
  else
    let clipStartIdx := pdArgmax (rollingMean winLen.toNat me) - winLen
    let s := pyTrunc ((clipStartIdx : ℚ) / fps)
    let clipStartSec : ℤ := if s < 0 then 0 else s
    { idx := clipStartIdx, sec := (clipStartSec : ℚ),
      action := if dstExists then SnipAction.skip else SnipAction.runFfmpeg,
      computedME := true,
      seekSec := if dstExists then none else some clipStartSec,
      dstExists := true }

/-- Result of read_nth_frames: the processed frames, the sequence of
values written to work.progress (in order), and whether the
"Error opening video file" message was logged. -/
structure RNFResult : Type where
  frames : List (List ℚ)
  writes : List ℚ
  loggedError : Bool
deriving Repr

/-- Loop body of read_nth_frames (video.py lines 302-324) over the frames
the capture can still deliver.  State: frame_counter and work.progress.
Returns the processed frames kept and the progress values written.
total is cap.get(cv2.CAP_PROP_FRAME_COUNT); proc models the external
cv2.resize / cv2.cvtColor / astype(float16) chain applied to a decoded
frame; useWork is whether a work sink was supplied. -/
def rnfGo {β : Type} (total : ℚ) (delta : ℚ) (n : ℕ) (proc : β → List ℚ)
    (useWork : Bool) : List β → ℕ → ℚ → List (List ℚ) × List ℚ
  | [], _, _ => ([], [])
  | f :: rest, counter, wp =>
    let keep := counter % n == 0
    let c1 := counter + 1
    let p := (c1 : ℚ) / total * 100
    let step : ℚ × List ℚ :=
      if useWork then
        if delta ≤ roundHalfEven4 p - wp then
          if 100 < p then (100, [100]) else (roundHalfEven4 p, [roundHalfEven4 p])
        else (wp, [])
      else (wp, [])
    let rec_ := rnfGo total delta n proc useWork rest c1 step.1
    ((if keep then [proc f] else []) ++ rec_.1, step.2 ++ rec_.2)

/-- read_nth_frames (video.py lines 285-329).  The video capture is
modelled as none when the file cannot be opened, and otherwise as the
list of decodable frames paired with the CAP_PROP_FRAME_COUNT metadata
value.  work is the initial work.progress value when a work is supplied.
When the capture is not opened the function logs an error (line 297) and
falls through: the while loop never runs and an empty frame list is
returned. -/
def read_nth_frames {β : Type} (video : Option (List β × ℚ)) (n : ℕ)
    (proc : β → List ℚ) (progressDelta : ℚ) (work : Option ℚ) : RNFResult :=
  match video with
  | none => { frames := [], writes := [], loggedError := true }
  | some v =>
    let r := rnfGo v.2 progressDelta n proc work.isSome v.1 0 (work.getD 0)
    { frames := r.1, writes := r.2, loggedError := false }

/-- Exceptions the modelled Python code can raise. -/
inductive PyError : Type
  | valueError : PyError
  | unboundLocal : PyError
deriving DecidableEq, Repr

/-- compute_video_motion_energy (video.py lines 240-261): read every frame
(n=1, default progress_delta, no work), reshape to (frame_count, -1),
prepend a zero row to the temporal diffs, and sum absolute values per
frame.  np.reshape raises ValueError when the frame array is empty
(size 0 cannot be reshaped to (0, -1)). -/
def compute_video_motion_energy {β : Type} (video : Option (List β × ℚ))
    (proc : β → List ℚ) : Except PyError (List ℚ) :=
  let r := read_nth_frames video 1 proc (1/2) none
  match r.frames with
  | [] => Except.error PyError.valueError
  | fs =>
    Except.ok (0 :: (fs.zip fs.tail).map (fun ab =>
      ((ab.2.zip ab.1).map (fun xy => |xy.1 - xy.2|)).sum))

/-- One prediction-table row entry per keypoint: (x, y, likelihood). -/
abbrev KpTriple : Type := ℚ × ℚ × ℚ

/-- kps[conf2 < likelihood_thresh] = np.nan (video.py line 277): a
keypoint whose likelihood is strictly below the threshold has both of
its coordinates replaced by NaN. -/
def maskRow (thresh : ℚ) (row : List KpTriple) : List (Option ℚ × Option ℚ) :=
  row.map (fun t => if t.2.2 < thresh then (none, none) else (some t.1, some t.2.1))

/-- np.linalg.norm of the difference of two (possibly NaN) keypoints
(video.py line 280): NaN coordinates propagate through the subtraction
and the norm. -/
noncomputable def kpDist (p q : Option ℚ × Option ℚ) : Option ℝ :=
  match p, q with
  | (some x1, some y1), (some x2, some y2) =>
    some (Real.sqrt (((x2 : ℝ) - (x1 : ℝ)) ^ 2 + ((y2 : ℝ) - (y1 : ℝ)) ^ 2))
  | _, _ => none

/-- np.nanmean over one axis entry: mean of the non-NaN values, NaN when
every value is NaN. -/
noncomputable def nanmeanR (l : List (Option ℝ)) : Option ℝ :=
  let v := l.filterMap id
  if v.isEmpty then none else some (v.sum / (v.length : ℝ))

/-- Consecutive pairs (row t, row t+1) of a list, as produced by indexing
kps[:-1] against kps[1:]. -/
def pairRows {γ : Type} (l : List γ) : List (γ × γ) :=
  l.zip l.tail

/-- compute_motion_energy_from_predection_df (video.py lines 264-282).
rows is the prediction table reshaped to per-frame lists of
(x, y, likelihood) triples.  Low-likelihood keypoints are masked to NaN,
per-keypoint Euclidean displacements between consecutive frames are taken
(NaN-propagating), each frame pair is averaged by np.nanmean, and a zero
is prepended for the first frame. -/
noncomputable def compute_motion_energy_from_predection_df
    (rows : List (List KpTriple)) (thresh : ℚ) : List (Option ℝ) :=
  some 0 :: (pairRows rows).map (fun ab =>
    nanmeanR (((maskRow thresh ab.1).zip (maskRow thresh ab.2)).map
      (fun pq => kpDist pq.1 pq.2)))

/-- Modelled from the spec (section 4.2, step 3): the displacements of
exactly those keypoints whose likelihood clears the threshold in both of
the two consecutive frames; a keypoint below threshold in either frame is
excluded outright (it does not appear in this list at all).  Used as the
specification side of the C7 refinement. -/
noncomputable def validDisplacements (thresh : ℚ) (a b : List KpTriple) :
    List ℝ :=
  (a.zip b).filterMap (fun pq =>
    if pq.1.2.2 < thresh ∨ pq.2.2.2 < thresh then none
    else some (Real.sqrt (((pq.2.1 : ℝ) - (pq.1.1 : ℝ)) ^ 2 +
      ((pq.2.2.1 : ℝ) - (pq.1.2.1 : ℝ)) ^ 2)))

/-- A decoded cv2 frame: rows of (B, G, R) pixel triples. -/
abbrev RawFrame : Type := List (List (ℕ × ℕ × ℕ))

/-- A frame in channel-height-width layout, as stored in the output of
get_frames_from_idxs. -/
abbrev CHWFrame : Type := List (List (List ℕ))

/-- cv2.cvtColor(frame, cv2.COLOR_BGR2RGB): swap the first and third
channel of every pixel. -/
def cvtColorBGR2RGB (f : RawFrame) : RawFrame :=
  f.map (fun row => row.map (fun px => (px.2.2, px.2.1, px.1)))

/-- Height of a frame (number of pixel rows). -/
def frameHeight (f : RawFrame) : ℕ := f.length

/-- Width of a frame (length of its first pixel row). -/
def frameWidth (f : RawFrame) : ℕ := (f.headD []).length

/-- frame_rgb.transpose(2, 0, 1): height-width-channel to
channel-height-width. -/
def transpose210 (f : RawFrame) : CHWFrame :=
  [f.map (fun row => row.map (fun px => px.1)),
   f.map (fun row => row.map (fun px => px.2.1)),
   f.map (fun row => row.map (fun px => px.2.2))]

/-- np.zeros((3, h, w)): an all-zero channel-height-width frame. -/
def zeroFrameCHW (h w : ℕ) : CHWFrame :=
  List.replicate 3 (List.replicate h (List.replicate w 0))

/-- np.sum(np.diff(idxs)): sum of consecutive differences. -/
def sumDiffs (idxs : List ℕ) : ℤ :=
  ((idxs.zip idxs.tail).map (fun ab => (ab.2 : ℤ) - (ab.1 : ℤ))).sum

/-- is_contiguous = np.sum(np.diff(idxs)) == (len(idxs) - 1)
(video.py line 136). -/
def isContiguous (idxs : List ℕ) : Bool :=
  sumDiffs idxs == (idxs.length : ℤ) - 1

/-- Loop of get_frames_from_idxs (video.py lines 138-153).  fs is the
video's frame list, n the requested frame count (used for the zeros
allocation), contig the precomputed contiguity flag.  The loop state is
the enumeration counter fr, the capture's read position pos, and the
output buffer, which stays none until the first successful read
allocates it.  cap.set(1, i) is modelled by replacing pos with i; a read
returns the frame at pos and advances pos.  A failed read breaks out of
the loop. -/
def gfGo (fs : List RawFrame) (n : ℕ) (contig : Bool) :
    List ℕ → ℕ → ℕ → Option (List CHWFrame) → Option (List CHWFrame)
  | [], _, _, buf => buf
  | i :: rest, fr, pos, buf =>
    let p := if fr == 0 || !contig then i else pos
    match fs.get? p with
    | none => buf
    | some frame =>
      let rgb := cvtColorBGR2RGB frame
      let buf1 :=
        if fr == 0 then
          List.replicate n (zeroFrameCHW (frameHeight rgb) (frameWidth rgb))
        else buf.getD []
      gfGo fs n contig rest (fr + 1) (p + 1) (some (buf1.set fr (transpose210 rgb)))

/-- get_frames_from_idxs (video.py lines 121-154).  cap is none when the
capture cannot deliver any frame (unopened video); returning with the
buffer never allocated is Python's UnboundLocalError on the final
return frames statement. -/
def get_frames_from_idxs (cap : Option (List RawFrame)) (idxs : List ℕ) :
    Except PyError (List CHWFrame) :=
  match gfGo (cap.getD []) idxs.length (isContiguous idxs) idxs 0 0 none with
  | none => Except.error PyError.unboundLocal
  | some b => Except.ok b

/-- int() truncation agrees with floor on nonnegative arguments. -/
theorem pyTrunc_eq_floor_of_nonneg {q : ℚ} (h : 0 ≤ q) : pyTrunc q = ⌊q⌋ := by
  simp [pyTrunc, not_lt.2 h]

/-- Round half to even is at least the floor. -/
theorem floor_le_rheInt (y : ℚ) : ⌊y⌋ ≤ rheInt y := by
  unfold rheInt
  split
  · exact le_refl _
  · split
    · exact Int.floor_le_ceil y
    · split
      · exact le_refl _
      · omega

/-- Round half to even is at most the ceiling. -/
theorem rheInt_le_ceil (y : ℚ) : rheInt y ≤ ⌈y⌉ := by
  unfold rheInt
  split
  · exact Int.floor_le_ceil y
  · rename_i h1
    split
    · exact le_refl _
    · rename_i h2
      have hf : Int.fract y = 1/2 := le_antisymm (not_lt.1 h2) (not_lt.1 h1)
      have hlt : (⌊y⌋ : ℚ) < y := by
        have hs := Int.self_sub_floor y
        have : y - (⌊y⌋ : ℚ) = 1/2 := by rw [hs, hf]
        linarith
      have hceil : ⌊y⌋ + 1 ≤ ⌈y⌉ := by
        have : ⌊y⌋ < ⌈y⌉ := Int.lt_ceil.2 hlt
        omega
      split
      · omega
      · exact hceil

/-- round(x, 4) of a nonnegative value is nonnegative. -/
theorem roundHalfEven4_nonneg {q : ℚ} (h : 0 ≤ q) : 0 ≤ roundHalfEven4 q := by
  unfold roundHalfEven4
  have h1 : (0 : ℤ) ≤ ⌊q * 10000⌋ := Int.floor_nonneg.2 (by positivity)
  have h2 : (0 : ℤ) ≤ rheInt (q * 10000) := le_trans h1 (floor_le_rheInt _)
  have h3 : (0 : ℚ) ≤ (rheInt (q * 10000) : ℚ) := by exact_mod_cast h2
  positivity

/-- round(x, 4) of a value at most 100 is at most 100. -/
theorem roundHalfEven4_le_100 {q : ℚ} (h : q ≤ 100) : roundHalfEven4 q ≤ 100 := by
  unfold roundHalfEven4
  have h1 : ⌈q * 10000⌉ ≤ (1000000 : ℤ) := Int.ceil_le.2 (by push_cast; linarith)
  have h2 : rheInt (q * 10000) ≤ (1000000 : ℤ) := le_trans (rheInt_le_ceil _) h1
  have h3 : (rheInt (q * 10000) : ℚ) ≤ 1000000 := by exact_mod_cast h2
  rw [div_le_iff₀ (by norm_num)]
  linarith

/-- The rolling mean has the same length as its input column. -/
theorem rollingMean_length {α : Type} [LinearOrderedField α] (w : ℕ)
    (xs : List (Option α)) : (rollingMean w xs).length = xs.length := by
  simp [rollingMean]

/-- A defined (non-NaN) rolling-mean entry sits at a position where the
window is already filled: w ≤ i + 1, and within the column. -/
theorem rollingMean_isSome_bounds {α : Type} [LinearOrderedField α] {w : ℕ}
    {xs : List (Option α)} {i : ℕ} {o : Option α}
    (h : (rollingMean w xs)[i]? = some o) (hs : o.isSome) :
    i < xs.length ∧ w ≤ i + 1 := by
  unfold rollingMean at h
  rcases Nat.lt_or_ge i xs.length with hi | hi
  · rw [List.getElem?_map, List.getElem?_range hi] at h
    simp only [Option.map_some'] at h
    refine ⟨hi, ?_⟩
    by_contra hw
    rw [if_pos (by omega)] at h
    cases h
    simp at hs
  · exfalso
    rw [List.getElem?_map] at h
    have : (List.range xs.length)[i]? = none := by
      rw [List.getElem?_eq_none]
      simpa using hi
    rw [this] at h
    cases h

/-- pdArgmaxNat is none exactly when every entry is NaN. -/
theorem pdArgmaxNat_eq_none_iff {α : Type} [LinearOrderedField α]
    (xs : List (Option α)) :
    pdArgmaxNat xs = none ↔ ∀ x ∈ xs, x = none := by
  induction xs with
  | nil => simp [pdArgmaxNat]
  | cons hd tl ih =>
    cases hd with
    | none =>
      simp only [pdArgmaxNat, Option.map_eq_none', List.mem_cons]
      constructor
      · intro h x hx
        rcases hx with rfl | hx
        · rfl
        · exact (ih.1 h) x hx
      · intro h
        exact ih.2 (fun x hx => h x (Or.inr hx))
    | some v =>
      simp only [pdArgmaxNat]
      constructor
      · intro h
        exfalso
        rcases hrec : pdArgmaxNat tl with _ | p
        · rw [hrec] at h; cases h
        · rw [hrec] at h
          rcases p with ⟨i, m⟩
          by_cases hvm : v < m <;> simp [hvm] at h
      · intro h
        exact absurd (h (some v) (List.mem_cons_self _ _)) (by simp)

/-- The position pdArgmaxNat reports holds the value it reports. -/
theorem pdArgmaxNat_get {α : Type} [LinearOrderedField α]
    {xs : List (Option α)} {i : ℕ} {v : α}
    (h : pdArgmaxNat xs = some (i, v)) : xs[i]? = some (some v) := by
  induction xs generalizing i v with
  | nil => cases h
  | cons hd tl ih =>
    cases hd with
    | none =>
      simp only [pdArgmaxNat, Option.map_eq_some'] at h
      rcases h with ⟨⟨j, m⟩, hj, he⟩
      cases he
      simpa using ih hj
    | some w =>
      simp only [pdArgmaxNat] at h
      rcases hrec : pdArgmaxNat tl with _ | ⟨j, m⟩ <;> rw [hrec] at h <;>
        dsimp only at h
      · cases h
        simp
      · by_cases hvm : w < m
        · rw [if_pos hvm] at h
          cases h
          simpa using ih hrec
        · rw [if_neg hvm] at h
          cases h
          simp

/-- make_video_snippet always leaves the destination existing. -/
theorem make_video_snippet_dstExists {α : Type} [LinearOrderedField α]
    (fps : ℚ) (clipLength nFrames : ℕ) (me : List (Option α)) (dstExists : Bool) :
    (make_video_snippet fps clipLength nFrames me dstExists).dstExists = true := by
  simp only [make_video_snippet]
  split <;> rfl

/-- Unfolding of the short-video branch (win_len >= n_frames). -/
theorem make_video_snippet_short {α : Type} [LinearOrderedField α]
    (fps : ℚ) (clipLength nFrames : ℕ) (me : List (Option α)) (dstExists : Bool)
    (h : (nFrames : ℤ) ≤ winLenOf fps clipLength) :
    make_video_snippet fps clipLength nFrames me dstExists =
      { idx := 0, sec := 0,
        action := if dstExists then SnipAction.skip else SnipAction.copyfile,
        computedME := false, seekSec := none, dstExists := true } := by
  simp only [make_video_snippet]
  rw [if_pos h]

/-- Unfolding of the trimming branch (win_len < n_frames). -/
theorem make_video_snippet_trim {α : Type} [LinearOrderedField α]
    (fps : ℚ) (clipLength nFrames : ℕ) (me : List (Option α)) (dstExists : Bool)
    (h : winLenOf fps clipLength < (nFrames : ℤ)) :
    make_video_snippet fps clipLength nFrames me dstExists =
      { idx := pdArgmax (rollingMean (winLenOf fps clipLength).toNat me) -
          winLenOf fps clipLength,
        sec := ((if pyTrunc (((pdArgmax (rollingMean (winLenOf fps clipLength).toNat me) -
          winLenOf fps clipLength : ℤ) : ℚ) / fps) < 0 then (0 : ℤ) else
          pyTrunc (((pdArgmax (rollingMean (winLenOf fps clipLength).toNat me) -
          winLenOf fps clipLength : ℤ) : ℚ) / fps)) : ℚ),
        action := if dstExists then SnipAction.skip else SnipAction.runFfmpeg,
        computedME := true,
        seekSec := if dstExists then none else
          some (if pyTrunc (((pdArgmax (rollingMean (winLenOf fps clipLength).toNat me) -
            winLenOf fps clipLength : ℤ) : ℚ) / fps) < 0 then (0 : ℤ) else
            pyTrunc (((pdArgmax (rollingMean (winLenOf fps clipLength).toNat me) -
            winLenOf fps clipLength : ℤ) : ℚ) / fps)),
        dstExists := true } := by
  simp only [make_video_snippet]
  rw [if_neg (not_le.2 h)]
  rw [apply_ite (fun z : ℤ => (z : ℚ))]

/-- C1 (amended): in a trimming invocation with at least one defined
trailing-average value, the resolved window start index lies between -1
and total_frames - window_frames - 1.  The upper bound of the original
claim holds, but the lower bound 0 does not: the start can be -1,
because the code subtracts the full window length from the arg-max
position of a right-anchored trailing average. -/
theorem C1_window_start_bounds {α : Type} [LinearOrderedField α]
    (fps : ℚ) (clipLength nFrames : ℕ) (me : List (Option α)) (dstExists : Bool)
    (hw : 0 < winLenOf fps clipLength)
    (htrim : winLenOf fps clipLength < (nFrames : ℤ))
    (hlen : me.length = nFrames)
    (hdef : ∃ x ∈ rollingMean (winLenOf fps clipLength).toNat me, x.isSome = true) :
    -1 ≤ (make_video_snippet fps clipLength nFrames me dstExists).idx ∧
    (make_video_snippet fps clipLength nFrames me dstExists).idx ≤
      (nFrames : ℤ) - winLenOf fps clipLength - 1 := by
  rcases hpm : pdArgmaxNat (rollingMean (winLenOf fps clipLength).toNat me) with _ | ⟨i, v⟩
  · exfalso
    obtain ⟨x, hx, hs⟩ := hdef
    have hall := (pdArgmaxNat_eq_none_iff _).1 hpm
    rw [hall x hx] at hs
    cases hs
  · have hget := pdArgmaxNat_get hpm
    have hb := rollingMean_isSome_bounds hget (by simp)
    obtain ⟨hi, hwle⟩ := hb
    rw [hlen] at hi
    have hcast : ((winLenOf fps clipLength).toNat : ℤ) = winLenOf fps clipLength :=
      Int.toNat_of_nonneg (le_of_lt hw)
    have hargmax : pdArgmax (rollingMean (winLenOf fps clipLength).toNat me) = (i : ℤ) := by
      rw [pdArgmax, hpm]
    rw [make_video_snippet_trim fps clipLength nFrames me dstExists htrim]
    simp only [hargmax]
    omega

/-- C1 witness: a concrete trimming invocation meeting all the
hypotheses, with the bounds instantiated. -/
theorem C1_window_start_bounds_witness :
    -1 ≤ (make_video_snippet (1 : ℚ) 2 3 [some (0 : ℚ), some 1, some 2] false).idx ∧
    (make_video_snippet (1 : ℚ) 2 3 [some (0 : ℚ), some 1, some 2] false).idx ≤
      (3 : ℤ) - winLenOf 1 2 - 1 :=
  C1_window_start_bounds 1 2 3 [some (0 : ℚ), some 1, some 2] false
    (by norm_num [winLenOf, pyTrunc]) (by norm_num [winLenOf, pyTrunc]) (by decide)
    (by norm_num [winLenOf, pyTrunc, rollingMean, List.range_succ, List.filterMap_cons,
      (show Int.toNat 2 = 2 from rfl)])

/-- C1 counterexample: a trimming invocation (window 2 frames, video 4
frames) whose motion-energy sequence is exactly what the pixel-based
estimator produces on a four-frame video with all motion in the first
frame pair; the returned start frame index is -1, violating the claimed
lower bound 0. -/
theorem C1_window_start_bounds_counterexample :
    compute_video_motion_energy (some ([[(0 : ℚ)], [10], [10], [10]], 4)) id =
      Except.ok [0, 10, 0, 0] ∧
    0 < winLenOf 2 1 ∧ winLenOf 2 1 < (4 : ℤ) ∧
    (make_video_snippet (2 : ℚ) 1 4 (List.map some [(0 : ℚ), 10, 0, 0]) false).idx = -1 ∧
    ¬(0 ≤ (make_video_snippet (2 : ℚ) 1 4 (List.map some [(0 : ℚ), 10, 0, 0]) false).idx) := by
  refine ⟨?_, ?_, ?_, ?_, ?_⟩ <;>
    norm_num [compute_video_motion_energy, read_nth_frames, rnfGo,
      make_video_snippet, winLenOf, pyTrunc, rollingMean, List.range_succ,
      pdArgmax, pdArgmaxNat, List.filterMap_cons, (show Int.toNat 2 = 2 from rfl)]

/-- C2 (amended): in a trimming invocation the reported start index is
the arg-max position of the trailing moving average minus the full
window length win_len, not win_len - 1. -/
theorem C2_start_recovery {α : Type} [LinearOrderedField α]
    (fps : ℚ) (clipLength nFrames : ℕ) (me : List (Option α)) (dstExists : Bool)
    (htrim : winLenOf fps clipLength < (nFrames : ℤ)) :
    (make_video_snippet fps clipLength nFrames me dstExists).idx =
      pdArgmax (rollingMean (winLenOf fps clipLength).toNat me) -
        winLenOf fps clipLength := by
  rw [make_video_snippet_trim fps clipLength nFrames me dstExists htrim]

/-- C2 witness: concrete trimming invocation. -/
theorem C2_start_recovery_witness :
    (make_video_snippet (2 : ℚ) 1 4 [some (0 : ℚ), some 0, some 10, some 10] false).idx =
      pdArgmax (rollingMean (winLenOf 2 1).toNat
        [some (0 : ℚ), some 0, some 10, some 10]) - winLenOf 2 1 :=
  C2_start_recovery 2 1 4 [some (0 : ℚ), some 0, some 10, some 10] false (by norm_num [winLenOf, pyTrunc])

/-- C2 counterexample: with win_len = 2 and motion energy [0, 0, 10, 10],
the trailing-average arg-max is at position 3, and the code reports start
index 1 = 3 - 2, not 2 = 3 - (2 - 1) as the claim states. -/
theorem C2_start_recovery_counterexample :
    winLenOf 2 1 = 2 ∧
    pdArgmax (rollingMean 2 [some (0 : ℚ), some 0, some 10, some 10]) = 3 ∧
    (make_video_snippet (2 : ℚ) 1 4 [some (0 : ℚ), some 0, some 10, some 10] false).idx = 1 ∧
    (make_video_snippet (2 : ℚ) 1 4 [some (0 : ℚ), some 0, some 10, some 10] false).idx ≠
      pdArgmax (rollingMean 2 [some (0 : ℚ), some 0, some 10, some 10]) -
        (winLenOf 2 1 - 1) := by
  refine ⟨?_, ?_, ?_, ?_⟩ <;>
    norm_num [make_video_snippet, winLenOf, pyTrunc, rollingMean, List.range_succ,
      pdArgmax, pdArgmaxNat, List.filterMap_cons, (show Int.toNat 2 = 2 from rfl)]

/-- C3 (amended): in a trimming invocation the returned start seconds is
the truncated start/fps value clamped below at zero (the NaN test is
vacuous, since the computed start is always an integer), but the
returned start frame index is not clamped: it stays the raw arg-max
minus win_len value even when negative. -/
theorem C3_negative_fallback {α : Type} [LinearOrderedField α]
    (fps : ℚ) (clipLength nFrames : ℕ) (me : List (Option α)) (dstExists : Bool)
    (htrim : winLenOf fps clipLength < (nFrames : ℤ)) :
    (make_video_snippet fps clipLength nFrames me dstExists).sec =
      ((max 0 (pyTrunc (((make_video_snippet fps clipLength nFrames me dstExists).idx : ℚ)
        / fps)) : ℤ) : ℚ) ∧
    (make_video_snippet fps clipLength nFrames me dstExists).idx =
      pdArgmax (rollingMean (winLenOf fps clipLength).toNat me) -
        winLenOf fps clipLength := by
  rw [make_video_snippet_trim fps clipLength nFrames me dstExists htrim]
  refine ⟨?_, rfl⟩
  by_cases hs : pyTrunc (((pdArgmax (rollingMean (winLenOf fps clipLength).toNat me) -
      winLenOf fps clipLength : ℤ) : ℚ) / fps) < 0
  · rw [if_pos hs, max_eq_left (le_of_lt hs)]
  · rw [if_neg hs, max_eq_right (not_lt.1 hs)]

/-- C3 witness: concrete trimming invocation with a negative computed
start, showing seconds clamped to zero while the index is not. -/
theorem C3_negative_fallback_witness :
    (make_video_snippet (2 : ℚ) 1 4 [some (0 : ℚ), some 10, some 0, some 0] false).sec =
      ((max 0 (pyTrunc (((make_video_snippet (2 : ℚ) 1 4
        [some (0 : ℚ), some 10, some 0, some 0] false).idx : ℚ) / 2)) : ℤ) : ℚ) ∧
    (make_video_snippet (2 : ℚ) 1 4 [some (0 : ℚ), some 10, some 0, some 0] false).idx =
      pdArgmax (rollingMean (winLenOf 2 1).toNat
        [some (0 : ℚ), some 10, some 0, some 0]) - winLenOf 2 1 :=
  C3_negative_fallback 2 1 4 [some (0 : ℚ), some 10, some 0, some 0] false (by norm_num [winLenOf, pyTrunc])

/-- C3 counterexample: a trimming invocation whose computed start index
is negative (-1); the returned seconds value resolves to 0.0 but the
returned start frame index stays -1 instead of resolving to 0. -/
theorem C3_negative_fallback_counterexample :
    (make_video_snippet (2 : ℚ) 1 4 [some (0 : ℚ), some 10, some 0, some 0] false).idx = -1 ∧
    (make_video_snippet (2 : ℚ) 1 4 [some (0 : ℚ), some 10, some 0, some 0] false).sec = 0 ∧
    (make_video_snippet (2 : ℚ) 1 4 [some (0 : ℚ), some 10, some 0, some 0] false).idx ≠ 0 := by
  refine ⟨?_, ?_, ?_⟩ <;>
    norm_num [make_video_snippet, winLenOf, pyTrunc, rollingMean, List.range_succ,
      pdArgmax, pdArgmaxNat, List.filterMap_cons, (show Int.toNat 2 = 2 from rfl)]

/-- The clip_start_sec < 0 fallback is a clamp at zero. -/
theorem ite_neg_eq_max (s : ℤ) : (if s < 0 then (0 : ℤ) else s) = max 0 s := by
  rcases lt_or_le s 0 with h | h
  · rw [if_pos h, max_eq_left (le_of_lt h)]
  · rw [if_neg (not_lt.2 h), max_eq_right h]

/-- C5 (amended): calling make_video_snippet a second time with the
destination produced by the first call skips re-materializing the
snippet file (the existing destination short-circuits the copy / ffmpeg
step) and returns the identical (start index, start seconds) pair; but
when the video needs trimming the motion-energy computation and window
selection are re-executed on the second call, not skipped. -/
theorem C5_second_call {α : Type} [LinearOrderedField α]
    (fps : ℚ) (clipLength nFrames : ℕ) (me : List (Option α)) :
    (make_video_snippet fps clipLength nFrames me
      (make_video_snippet fps clipLength nFrames me false).dstExists).idx =
      (make_video_snippet fps clipLength nFrames me false).idx ∧
    (make_video_snippet fps clipLength nFrames me
      (make_video_snippet fps clipLength nFrames me false).dstExists).sec =
      (make_video_snippet fps clipLength nFrames me false).sec ∧
    (make_video_snippet fps clipLength nFrames me
      (make_video_snippet fps clipLength nFrames me false).dstExists).action =
      SnipAction.skip ∧
    (winLenOf fps clipLength < (nFrames : ℤ) →
      (make_video_snippet fps clipLength nFrames me
        (make_video_snippet fps clipLength nFrames me false).dstExists).computedME =
        true) := by
  rw [make_video_snippet_dstExists]
  rcases le_or_lt (nFrames : ℤ) (winLenOf fps clipLength) with hbr | hbr
  · rw [make_video_snippet_short fps clipLength nFrames me true hbr,
      make_video_snippet_short fps clipLength nFrames me false hbr]
    refine ⟨rfl, rfl, rfl, fun htrim => absurd hbr (not_le.2 htrim)⟩
  · rw [make_video_snippet_trim fps clipLength nFrames me true hbr,
      make_video_snippet_trim fps clipLength nFrames me false hbr]
    exact ⟨rfl, rfl, rfl, fun _ => rfl⟩

/-- C5 witness: concrete trimming invocation, with the implication
discharged: the second call does recompute the motion energy. -/
theorem C5_second_call_witness :
    (make_video_snippet (2 : ℚ) 1 4 [some (0 : ℚ), some 0, some 10, some 10]
      (make_video_snippet (2 : ℚ) 1 4 [some (0 : ℚ), some 0, some 10, some 10]
        false).dstExists).idx =
      (make_video_snippet (2 : ℚ) 1 4 [some (0 : ℚ), some 0, some 10, some 10]
        false).idx ∧
    (make_video_snippet (2 : ℚ) 1 4 [some (0 : ℚ), some 0, some 10, some 10]
      (make_video_snippet (2 : ℚ) 1 4 [some (0 : ℚ), some 0, some 10, some 10]
        false).dstExists).computedME = true := by
  have h := C5_second_call (α := ℚ) 2 1 4 [some (0 : ℚ), some 0, some 10, some 10]
  exact ⟨h.1, h.2.2.2 (by norm_num [winLenOf, pyTrunc])⟩

/-- C5 counterexample: in a trimming invocation the second call with the
existing destination still recomputes the motion energy (computedME is
true), so "performs no recomputation on the second call" is false; the
claim holds only for the file-materialization step (action is skip) and
the returned pair, which are indeed identical. -/
theorem C5_second_call_counterexample :
    winLenOf 2 1 < (4 : ℤ) ∧
    (make_video_snippet (2 : ℚ) 1 4 [some (0 : ℚ), some 0, some 10, some 10]
      true).computedME = true ∧
    (make_video_snippet (2 : ℚ) 1 4 [some (0 : ℚ), some 0, some 10, some 10]
      true).action = SnipAction.skip ∧
    (make_video_snippet (2 : ℚ) 1 4 [some (0 : ℚ), some 0, some 10, some 10]
      true).idx =
      (make_video_snippet (2 : ℚ) 1 4 [some (0 : ℚ), some 0, some 10, some 10]
        false).idx ∧
    (make_video_snippet (2 : ℚ) 1 4 [some (0 : ℚ), some 0, some 10, some 10]
      true).sec =
      (make_video_snippet (2 : ℚ) 1 4 [some (0 : ℚ), some 0, some 10, some 10]
        false).sec := by
  refine ⟨?_, ?_, ?_, ?_, ?_⟩ <;>
    norm_num [make_video_snippet, winLenOf, pyTrunc, rollingMean, List.range_succ,
      pdArgmax, pdArgmaxNat, List.filterMap_cons, (show Int.toNat 2 = 2 from rfl)]

/-- C6: win_len = int(fps * clip_length) equals floor(fps * clip_length)
for the nonnegative frame rates cv2 reports, and whenever
win_len >= n_frames the call returns start index exactly 0 and start
seconds exactly 0.0, with the whole video copied (not re-encoded) when
the destination does not yet exist. -/
theorem C6_short_video {α : Type} [LinearOrderedField α]
    (fps : ℚ) (clipLength nFrames : ℕ) (me : List (Option α)) (dstExists : Bool)
    (hfps : 0 ≤ fps) :
    winLenOf fps clipLength = ⌊fps * (clipLength : ℚ)⌋ ∧
    ((nFrames : ℤ) ≤ winLenOf fps clipLength →
      (make_video_snippet fps clipLength nFrames me dstExists).idx = 0 ∧
      (make_video_snippet fps clipLength nFrames me dstExists).sec = 0 ∧
      (make_video_snippet fps clipLength nFrames me dstExists).computedME = false ∧
      (make_video_snippet fps clipLength nFrames me dstExists).action =
        (if dstExists then SnipAction.skip else SnipAction.copyfile)) := by
  constructor
  · exact pyTrunc_eq_floor_of_nonneg (mul_nonneg hfps (Nat.cast_nonneg _))
  · intro h
    rw [make_video_snippet_short fps clipLength nFrames me dstExists h]
    exact ⟨rfl, rfl, rfl, rfl⟩

/-- C6 witness: a 2-frame video at 2 fps with a 1-second window
(win_len = 2 >= 2 frames): whole video copied, start 0 / 0.0. -/
theorem C6_short_video_witness :
    winLenOf 2 1 = ⌊(2 : ℚ) * ((1 : ℕ) : ℚ)⌋ ∧
    (make_video_snippet (2 : ℚ) 1 2 ([] : List (Option ℚ)) false).idx = 0 ∧
    (make_video_snippet (2 : ℚ) 1 2 ([] : List (Option ℚ)) false).sec = 0 ∧
    (make_video_snippet (2 : ℚ) 1 2 ([] : List (Option ℚ)) false).computedME = false ∧
    (make_video_snippet (2 : ℚ) 1 2 ([] : List (Option ℚ)) false).action =
      SnipAction.copyfile := by
  have h := C6_short_video (α := ℚ) 2 1 2 [] false (by norm_num)
  have h2 := h.2 (by norm_num [winLenOf, pyTrunc])
  exact ⟨h.1, h2.1, h2.2.1, h2.2.2.1, h2.2.2.2⟩

/-- C9 (amended): in a trimming invocation that materializes the snippet,
the returned start seconds is a whole number of seconds: the integer
truncation of start_frame_index / fps clamped below at zero (when the
truncation is negative the returned value is 0.0, not the truncation),
and the ffmpeg sub-clip extraction is seeked to exactly that whole
second. -/
theorem C9_whole_seconds {α : Type} [LinearOrderedField α]
    (fps : ℚ) (clipLength nFrames : ℕ) (me : List (Option α))
    (htrim : winLenOf fps clipLength < (nFrames : ℤ)) :
    ∃ k : ℤ,
      (make_video_snippet fps clipLength nFrames me false).sec = (k : ℚ) ∧
      k = max 0 (pyTrunc
        (((make_video_snippet fps clipLength nFrames me false).idx : ℚ) / fps)) ∧
      (make_video_snippet fps clipLength nFrames me false).seekSec = some k := by
  rw [make_video_snippet_trim fps clipLength nFrames me false htrim]
  refine ⟨max 0 (pyTrunc (((pdArgmax (rollingMean (winLenOf fps clipLength).toNat me) -
    winLenOf fps clipLength : ℤ) : ℚ) / fps)), ?_, rfl, ?_⟩
  · show (if pyTrunc (((pdArgmax (rollingMean (winLenOf fps clipLength).toNat me) -
        winLenOf fps clipLength : ℤ) : ℚ) / fps) < 0 then ((0 : ℤ) : ℚ) else
        ((pyTrunc (((pdArgmax (rollingMean (winLenOf fps clipLength).toNat me) -
        winLenOf fps clipLength : ℤ) : ℚ) / fps) : ℤ) : ℚ)) = _
    rw [← apply_ite (fun z : ℤ => (z : ℚ)), ite_neg_eq_max]
  · show some (if pyTrunc (((pdArgmax (rollingMean (winLenOf fps clipLength).toNat me) -
        winLenOf fps clipLength : ℤ) : ℚ) / fps) < 0 then (0 : ℤ) else
        pyTrunc (((pdArgmax (rollingMean (winLenOf fps clipLength).toNat me) -
        winLenOf fps clipLength : ℤ) : ℚ) / fps)) = _
    rw [ite_neg_eq_max]

/-- C9 witness: concrete trimming invocation. -/
theorem C9_whole_seconds_witness :
    ∃ k : ℤ,
      (make_video_snippet (2 : ℚ) 1 4 [some (0 : ℚ), some 0, some 10, some 10]
        false).sec = (k : ℚ) ∧
      k = max 0 (pyTrunc (((make_video_snippet (2 : ℚ) 1 4
        [some (0 : ℚ), some 0, some 10, some 10] false).idx : ℚ) / 2)) ∧
      (make_video_snippet (2 : ℚ) 1 4 [some (0 : ℚ), some 0, some 10, some 10]
        false).seekSec = some k :=
  C9_whole_seconds 2 1 4 [some (0 : ℚ), some 0, some 10, some 10]
    (by norm_num [winLenOf, pyTrunc])

/-- C9 counterexample: at 1 fps with a 2-second window over a 4-frame
video whose motion peaks in the first window, the computed start index
is -1, int(-1 / 1) = -1 is negative, and the returned start seconds is
the clamped 0.0, not the integer truncation -1 the claim specifies. -/
theorem C9_whole_seconds_counterexample :
    (make_video_snippet (1 : ℚ) 2 4 [some (0 : ℚ), some 10, some 0, some 0]
      false).idx = -1 ∧
    pyTrunc (((make_video_snippet (1 : ℚ) 2 4 [some (0 : ℚ), some 10, some 0, some 0]
      false).idx : ℚ) / 1) = -1 ∧
    (make_video_snippet (1 : ℚ) 2 4 [some (0 : ℚ), some 10, some 0, some 0]
      false).sec = 0 ∧
    (make_video_snippet (1 : ℚ) 2 4 [some (0 : ℚ), some 10, some 0, some 0]
      false).sec ≠ ((pyTrunc (((make_video_snippet (1 : ℚ) 2 4
        [some (0 : ℚ), some 10, some 0, some 0] false).idx : ℚ) / 1) : ℤ) : ℚ) := by
  have hceil : ⌈(-1 : ℚ)⌉ = -1 := by
    rw [Int.ceil_eq_iff]
    norm_num
  refine ⟨?_, ?_, ?_, ?_⟩ <;>
    norm_num [make_video_snippet, winLenOf, pyTrunc, rollingMean, List.range_succ,
      pdArgmax, pdArgmaxNat, List.filterMap_cons, hceil,
      (show Int.toNat 2 = 2 from rfl)]

/-- C4 (amended): when the video cannot be opened, read_nth_frames does
not fail: it logs the error and returns normally with an empty frame
array (and no progress writes); the failure only surfaces afterwards,
when compute_video_motion_energy raises a ValueError reshaping the
empty array — after the read loop has already run, not before any
computation is attempted. -/
theorem C4_unopenable_video {β : Type} (n : ℕ) (proc : β → List ℚ)
    (delta : ℚ) (work : Option ℚ) :
    read_nth_frames (none : Option (List β × ℚ)) n proc delta work =
      { frames := [], writes := [], loggedError := true } ∧
    compute_video_motion_energy (none : Option (List β × ℚ)) proc =
      Except.error PyError.valueError :=
  ⟨rfl, rfl⟩

/-- C4 counterexample: on an unopenable video, read_nth_frames itself
produces an empty frames result and merely logs the error — it does not
report a fatal failure before computation as the claim states. -/
theorem C4_unopenable_video_counterexample :
    (read_nth_frames (none : Option (List Unit × ℚ)) 1 (fun _ => []) (1/2)
      none).frames = [] ∧
    (read_nth_frames (none : Option (List Unit × ℚ)) 1 (fun _ => []) (1/2)
      none).loggedError = true :=
  ⟨rfl, rfl⟩

/-- Loop invariant for the progress writes of read_nth_frames: with a
positive frame-count metadata value and a nonnegative progress delta,
every written value is in [0, 100], is at least min(work.progress, 100)
for the work.progress value at loop entry, and the written sequence is
non-decreasing. -/
theorem rnfGo_writes_sound {β : Type} (total delta : ℚ) (n : ℕ)
    (proc : β → List ℚ) (ht : 0 < total) (hd : 0 ≤ delta) :
    ∀ (frames : List β) (counter : ℕ) (wp : ℚ),
      (∀ x ∈ (rnfGo total delta n proc true frames counter wp).2,
        0 ≤ x ∧ x ≤ 100 ∧ min wp 100 ≤ x) ∧
      (rnfGo total delta n proc true frames counter wp).2.Chain' (· ≤ ·) := by
  intro frames
  induction frames with
  | nil =>
    intro counter wp
    constructor
    · intro x hx
      simp [rnfGo] at hx
    · simp [rnfGo]
  | cons f rest ih =>
    intro counter wp
    simp only [rnfGo, if_true]
    have hp : 0 < ((counter + 1 : ℕ) : ℚ) / total * 100 := by
      have h1 : (0 : ℚ) < ((counter + 1 : ℕ) : ℚ) := by
        exact_mod_cast Nat.succ_pos counter
      positivity
    by_cases hguard : delta ≤ roundHalfEven4 (((counter + 1 : ℕ) : ℚ) / total * 100) - wp
    · rw [if_pos hguard]
      by_cases hp100 : 100 < ((counter + 1 : ℕ) : ℚ) / total * 100
      · rw [if_pos hp100]
        have hih := ih (counter + 1) 100
        constructor
        · intro x hx
          simp only [List.cons_append, List.nil_append, List.mem_cons] at hx
          rcases hx with rfl | hx
          · exact ⟨by norm_num, le_refl _, min_le_right _ _⟩
          · have hb := hih.1 x hx
            exact ⟨hb.1, hb.2.1, le_trans (min_le_right _ _)
              (le_trans (by simp) hb.2.2)⟩
        · simp only [List.cons_append, List.nil_append]
          rw [List.chain'_cons']
          refine ⟨fun y hy => ?_, hih.2⟩
          have hb := hih.1 y (List.mem_of_mem_head? hy)
          exact le_trans (by simp) hb.2.2
      · rw [if_neg hp100]
        have hple : ((counter + 1 : ℕ) : ℚ) / total * 100 ≤ 100 := not_lt.1 hp100
        have hr0 : 0 ≤ roundHalfEven4 (((counter + 1 : ℕ) : ℚ) / total * 100) :=
          roundHalfEven4_nonneg (le_of_lt hp)
        have hr100 : roundHalfEven4 (((counter + 1 : ℕ) : ℚ) / total * 100) ≤ 100 :=
          roundHalfEven4_le_100 hple
        have hwp : wp ≤ roundHalfEven4 (((counter + 1 : ℕ) : ℚ) / total * 100) := by
          linarith
        have hih := ih (counter + 1)
          (roundHalfEven4 (((counter + 1 : ℕ) : ℚ) / total * 100))
        constructor
        · intro x hx
          simp only [List.cons_append, List.nil_append, List.mem_cons] at hx
          rcases hx with rfl | hx
          · exact ⟨hr0, hr100, le_trans (min_le_left _ _) hwp⟩
          · have hb := hih.1 x hx
            refine ⟨hb.1, hb.2.1, ?_⟩
            have : min (roundHalfEven4 (((counter + 1 : ℕ) : ℚ) / total * 100)) 100 =
                roundHalfEven4 (((counter + 1 : ℕ) : ℚ) / total * 100) :=
              min_eq_left hr100
            have hge := hb.2.2
            rw [this] at hge
            exact le_trans (le_trans (min_le_left _ _) hwp) hge
        · simp only [List.cons_append, List.nil_append]
          rw [List.chain'_cons']
          refine ⟨fun y hy => ?_, hih.2⟩
          have hb := hih.1 y (List.mem_of_mem_head? hy)
          have : min (roundHalfEven4 (((counter + 1 : ℕ) : ℚ) / total * 100)) 100 =
              roundHalfEven4 (((counter + 1 : ℕ) : ℚ) / total * 100) :=
            min_eq_left hr100
          have hge := hb.2.2
          rw [this] at hge
          exact hge
    · rw [if_neg hguard]
      have hih := ih (counter + 1) wp
      constructor
      · intro x hx
        simp only [List.nil_append] at hx
        exact hih.1 x hx
      · simp only [List.nil_append]
        exact hih.2

/-- C8: with a positive frame-count metadata value and a nonnegative
progress delta, every value read_nth_frames writes to work.progress is
in [0, 100] and the written sequence never decreases. -/
theorem C8_progress_monotone {β : Type} (frames : List β) (total : ℚ) (n : ℕ)
    (proc : β → List ℚ) (delta init : ℚ) (ht : 0 < total) (hd : 0 ≤ delta) :
    (∀ x ∈ (read_nth_frames (some (frames, total)) n proc delta (some init)).writes,
      0 ≤ x ∧ x ≤ 100) ∧
    (read_nth_frames (some (frames, total)) n proc delta
      (some init)).writes.Chain' (· ≤ ·) := by
  have h := rnfGo_writes_sound total delta n proc ht hd frames 0 init
  exact ⟨fun x hx => ⟨(h.1 x hx).1, (h.1 x hx).2.1⟩, h.2⟩

/-- C8 witness: one frame, metadata count 1, delta 1/2, initial progress
0; the single write is 100. -/
theorem C8_progress_monotone_witness :
    (∀ x ∈ (read_nth_frames (some ([()], (1 : ℚ))) 1 (fun _ => []) (1/2)
      (some 0)).writes, 0 ≤ x ∧ x ≤ 100) ∧
    (read_nth_frames (some ([()], (1 : ℚ))) 1 (fun _ => []) (1/2)
      (some 0)).writes.Chain' (· ≤ ·) :=
  C8_progress_monotone [()] 1 1 (fun _ => []) (1/2) 0 (by norm_num) (by norm_num)

/-- Consecutive rows pair up in pairRows. -/
theorem pairRows_get {γ : Type} {rows : List γ} {t : ℕ} {a b : γ}
    (ha : rows[t]? = some a) (hb : rows[t + 1]? = some b) :
    (pairRows rows)[t]? = some (a, b) := by
  unfold pairRows
  exact List.getElem?_zip_eq_some.2 ⟨ha, by rw [List.getElem?_tail]; exact hb⟩

/-- Pointwise: the NaN-masked displacement of one keypoint pair is none
exactly when the keypoint is below threshold in either frame, and the
true Euclidean displacement otherwise. -/
theorem kpDist_mask (thresh : ℚ) (p q : KpTriple) :
    kpDist (if p.2.2 < thresh then (none, none) else (some p.1, some p.2.1))
        (if q.2.2 < thresh then (none, none) else (some q.1, some q.2.1)) =
      if p.2.2 < thresh ∨ q.2.2 < thresh then none
      else some (Real.sqrt (((q.1 : ℝ) - (p.1 : ℝ)) ^ 2 +
        ((q.2.1 : ℝ) - (p.2.1 : ℝ)) ^ 2)) := by
  by_cases hp : p.2.2 < thresh <;> by_cases hq : q.2.2 < thresh <;>
    simp [hp, hq, kpDist]

/-- C7: the keypoint-based motion energy at frame t+1 is the mean of the
displacements of exactly those keypoints whose likelihood clears the
threshold in both frames t and t+1 — keypoints below threshold in either
frame are excluded from the mean (not counted as zero) — and it is NaN
(none) when every keypoint is excluded for that frame pair. -/
theorem C7_keypoint_exclusion (rows : List (List KpTriple)) (thresh : ℚ)
    (t : ℕ) (a b : List KpTriple)
    (ha : rows[t]? = some a) (hb : rows[t + 1]? = some b) :
    (compute_motion_energy_from_predection_df rows thresh)[t + 1]? =
      some (if (validDisplacements thresh a b).isEmpty then none
        else some ((validDisplacements thresh a b).sum /
          ((validDisplacements thresh a b).length : ℝ))) := by
  have hpair := pairRows_get ha hb
  show (some 0 :: (pairRows rows).map _)[t + 1]? = _
  rw [List.getElem?_cons_succ, List.getElem?_map, hpair, Option.map_some']
  congr 1
  simp only [maskRow]
  rw [List.zip_map, List.map_map]
  unfold nanmeanR
  rw [List.filterMap_map]
  have hfm : List.filterMap
      (id ∘ ((fun pq : (Option ℚ × Option ℚ) × (Option ℚ × Option ℚ) =>
        kpDist pq.1 pq.2) ∘ Prod.map
          (fun s : KpTriple => if s.2.2 < thresh then (none, none)
            else (some s.1, some s.2.1))
          (fun s : KpTriple => if s.2.2 < thresh then (none, none)
            else (some s.1, some s.2.1)))) (a.zip b) =
      validDisplacements thresh a b := by
    unfold validDisplacements
    apply List.filterMap_congr
    intro pq _
    simp only [Function.comp_apply, Prod.map_apply, id_eq]
    exact kpDist_mask thresh pq.1 pq.2
  rw [hfm]

/-- C7 witness: one keypoint below threshold in both of two frames — all
keypoints excluded, motion energy at index 1 is NaN. -/
theorem C7_keypoint_exclusion_witness :
    (compute_motion_energy_from_predection_df
      [[((0 : ℚ), (0 : ℚ), (0 : ℚ))], [((1 : ℚ), (1 : ℚ), (0 : ℚ))]] (9/10))[1]? =
      some (if (validDisplacements (9/10) [((0 : ℚ), (0 : ℚ), (0 : ℚ))]
          [((1 : ℚ), (1 : ℚ), (0 : ℚ))]).isEmpty then none
        else some ((validDisplacements (9/10) [((0 : ℚ), (0 : ℚ), (0 : ℚ))]
            [((1 : ℚ), (1 : ℚ), (0 : ℚ))]).sum /
          ((validDisplacements (9/10) [((0 : ℚ), (0 : ℚ), (0 : ℚ))]
            [((1 : ℚ), (1 : ℚ), (0 : ℚ))]).length : ℝ))) :=
  C7_keypoint_exclusion [[((0 : ℚ), (0 : ℚ), (0 : ℚ))], [((1 : ℚ), (1 : ℚ), (0 : ℚ))]]
    (9/10) 0 [((0 : ℚ), (0 : ℚ), (0 : ℚ))] [((1 : ℚ), (1 : ℚ), (0 : ℚ))] rfl rfl

/-- Unrolling sum-of-diffs over two explicit heads. -/
theorem sumDiffs_cons_cons (a b : ℕ) (t : List ℕ) :
    sumDiffs (a :: b :: t) = ((b : ℤ) - (a : ℤ)) + sumDiffs (b :: t) := by
  simp [sumDiffs]

/-- Sum of diffs of a contiguous run of length n + 1 is n. -/
theorem sumDiffs_range' (s n : ℕ) : sumDiffs (List.range' s (n + 1)) = n := by
  induction n generalizing s with
  | zero => simp [sumDiffs, List.range']
  | succ m ih =>
    rw [List.range'_succ, List.range'_succ, sumDiffs_cons_cons, ← List.range'_succ,
      ih (s + 1)]
    push_cast
    ring

/-- A nonempty contiguous index run passes the is_contiguous test. -/
theorem isContiguous_range' (s m : ℕ) :
    isContiguous (List.range' s (m + 1)) = true := by
  unfold isContiguous
  rw [sumDiffs_range', List.length_range']
  simp

/-- BGR-to-RGB conversion preserves the height. -/
theorem frameHeight_cvt (f : RawFrame) :
    frameHeight (cvtColorBGR2RGB f) = frameHeight f := by
  simp [frameHeight, cvtColorBGR2RGB]

/-- BGR-to-RGB conversion preserves the width. -/
theorem frameWidth_cvt (f : RawFrame) :
    frameWidth (cvtColorBGR2RGB f) = frameWidth f := by
  cases f with
  | nil => rfl
  | cons r t => simp [frameWidth, cvtColorBGR2RGB]

/-- Steady phase of the get_frames_from_idxs loop on a contiguous index
list: once the buffer is allocated (fr >= 1) and the read position
tracks i0 + fr, the loop never fails, preserves the buffer length, and
leaves every buffer entry at position >= fs.length - i0 untouched (those
iterations read past the end of the video and break out). -/
theorem gfGo_steady (fs : List RawFrame) (n : ℕ) (i0 : ℕ) :
    ∀ (rest : List ℕ) (fr : ℕ) (b : List CHWFrame), 1 ≤ fr →
      ∃ b', gfGo fs n true rest fr (i0 + fr) (some b) = some b' ∧
        b'.length = b.length ∧
        ∀ j : ℕ, fs.length - i0 ≤ j → b'.get? j = b.get? j := by
  intro rest
  induction rest with
  | nil =>
    intro fr b _
    exact ⟨b, rfl, rfl, fun _ _ => rfl⟩
  | cons i rest ih =>
    intro fr b hfr
    have hfr0 : (fr == 0) = false := by
      simp only [beq_eq_false_iff_ne, ne_eq]
      omega
    simp only [gfGo, hfr0, Bool.not_true, Bool.or_self, Bool.false_eq_true,
      if_false]
    rcases hread : fs.get? (i0 + fr) with _ | f
    · exact ⟨b, rfl, rfl, fun _ _ => rfl⟩
    · have hlt : i0 + fr < fs.length := by
        rcases List.get?_eq_some.1 hread with ⟨hl, _⟩
        exact hl
      have hfrlt : fr < fs.length - i0 := by omega
      obtain ⟨b', hb', hlen, hsame⟩ :=
        ih (fr + 1) ((some b).getD [] |>.set fr
          (transpose210 (cvtColorBGR2RGB f))) (by omega)
      refine ⟨b', hb', ?_, ?_⟩
      · rw [hlen]
        simp
      · intro j hj
        rw [hsame j hj]
        simp only [Option.getD_some]
        exact List.get?_set_ne _ _ (by omega)

/-- C10: if the very first requested frame cannot be read (unopenable
capture or out-of-range first index), get_frames_from_idxs fails with an
uncaught UnboundLocalError because the output buffer was never
allocated; if the first read succeeds and only later reads fail
(contiguous request running past the end of the stream), it returns a
buffer of the full requested length whose unread trailing entries are
all-zero frames. -/
theorem C10_first_read_and_trailing_zeros (cap : Option (List RawFrame))
    (i0 : ℕ) (rest : List ℕ) (fs : List RawFrame) (m h w : ℕ) :
    ((cap.getD []).get? i0 = none →
      get_frames_from_idxs cap (i0 :: rest) = Except.error PyError.unboundLocal) ∧
    (0 < m → i0 < fs.length →
      (∀ f ∈ fs, frameHeight f = h ∧ frameWidth f = w) →
      ∃ b, get_frames_from_idxs (some fs) (List.range' i0 m) = Except.ok b ∧
        b.length = m ∧
        ∀ j : ℕ, fs.length - i0 ≤ j → j < m →
          b.get? j = some (zeroFrameCHW h w)) := by
  constructor
  · intro hnone
    unfold get_frames_from_idxs
    simp only [gfGo, beq_self_eq_true, Bool.true_or, if_true, hnone]
  · intro hm hi0 hdim
    obtain ⟨m', rfl⟩ : ∃ m', m = m' + 1 := ⟨m - 1, by omega⟩
    have hcontig := isContiguous_range' i0 m'
    rcases hf0 : fs.get? i0 with _ | f0
    · exact absurd hf0 (by rw [List.get?_eq_get hi0]; simp)
    · have hf0mem : f0 ∈ fs := List.get?_mem hf0
      have hdim0 := hdim f0 hf0mem
      unfold get_frames_from_idxs
      rw [hcontig, List.range'_succ]
      simp only [gfGo, beq_self_eq_true, Bool.true_or, if_true, Option.getD_some,
        hf0, Nat.zero_add]
      rw [← List.range'_succ]
      obtain ⟨b', hb', hlen, hsame⟩ := gfGo_steady fs (List.range' i0 (m' + 1)).length
        i0 (List.range' (i0 + 1) m') 1
        ((List.replicate (List.range' i0 (m' + 1)).length
          (zeroFrameCHW (frameHeight (cvtColorBGR2RGB f0))
            (frameWidth (cvtColorBGR2RGB f0)))).set 0
          (transpose210 (cvtColorBGR2RGB f0))) (le_refl 1)
      rw [hb']
      refine ⟨b', rfl, ?_, ?_⟩
      · rw [hlen]
        simp [List.length_range']
      · intro j hj hjm
        rw [hsame j hj, List.get?_set_ne _ _ (by omega),
          List.get?_eq_getElem?, List.getElem?_replicate,
          frameHeight_cvt, frameWidth_cvt, hdim0.1, hdim0.2]
        rw [if_pos (by simpa [List.length_range'] using hjm)]

/-- C10 witness: an unopenable capture errors on the first read; a
one-frame video asked for two contiguous frames returns a length-2
buffer whose trailing entry is an all-zero frame. -/
theorem C10_first_read_and_trailing_zeros_witness :
    (get_frames_from_idxs none [0] = Except.error PyError.unboundLocal) ∧
    (∃ b, get_frames_from_idxs
        (some ([[[((1 : ℕ), (2 : ℕ), (3 : ℕ))]]] : List RawFrame))
        (List.range' 0 2) = Except.ok b ∧
      b.length = 2 ∧
      ∀ j : ℕ, 1 ≤ j → j < 2 → b.get? j = some (zeroFrameCHW 1 1)) := by
  have h := C10_first_read_and_trailing_zeros none 0 []
    ([[[((1 : ℕ), (2 : ℕ), (3 : ℕ))]]] : List RawFrame) 2 1 1
  exact ⟨h.1 rfl, h.2 (by decide) (by decide) (by decide)⟩
